import Mathlib

/-!
Verification of the maribor-scraper repository.

The numeric model uses exact rationals (ℚ) for the site's one-decimal player
ratings and their averages; JavaScript floating point is idealised as exact
real arithmetic, which is faithful on the one-decimal values in [5.0, 10.0]
that the program manipulates.

JavaScript objects used as string-keyed dictionaries (`positionData`,
`playerBestPositions`, `playersByPosition`) preserve key insertion order, and
updating an existing key keeps its position; they are modelled as insertion-
ordered association lists with in-place update.  `Array.prototype.sort` is
stable (ECMAScript 2019), so the rating sorts are modelled by a stable
descending insertion sort.

DOM access (`document.querySelectorAll`, element text, image attributes) is
modelled by passing the scanned page content in as explicit data: a table row
is a list of cell texts plus a list of images, exactly the projection of the
DOM that the source's `page.evaluate` blocks read.
-/

namespace Maribor

/-- JavaScript `Math.round`: round half toward positive infinity. -/
def jsRound (q : ℚ) : ℤ := ⌊q + 1/2⌋

/-- `Math.round(x * 10) / 10`: round to one decimal place, as used throughout
the repository. -/
def round1 (q : ℚ) : ℚ := (jsRound (q * 10) : ℚ) / 10

/-- A rational is a one-decimal value when ten times it is an integer. -/
def isOneDecimal (q : ℚ) : Prop := (q * 10).den = 1

/-! ## Data model (public/script.js and src/scraper.js)

`Player` is the per-game player record produced by the scraper and consumed by
the dashboard; a missing (`null`/`undefined`) rating is `none`. -/

structure Player where
  name : String
  rating : Option ℚ
  position : String
  minutesPlayed : ℕ
  isStartingXI : Bool
deriving Repr, DecidableEq

/-- A scraped game record.  The `scrapedAt` capture timestamp is an
environment-supplied wall-clock string with no bearing on any logic and is
omitted. -/
structure GameData where
  id : String
  url : String
  date : String
  homeTeam : String
  awayTeam : String
  score : String
  players : List Player
  hasRatings : Bool
deriving Repr, DecidableEq

/-! ## Dashboard aggregation: `calculatePositionData` (public/script.js 129-175) -/

/-- Entry pushed onto `positionData[key].games` for each appearance. -/
structure GameRef where
  opponent : String
  date : String
  rating : Option ℚ
deriving Repr, DecidableEq

/-- The state of `positionData[key]` during the aggregation pass, before the
average/best/worst fields are filled in. -/
structure PlayerAgg where
  name : String
  position : String
  ratings : List (Option ℚ)
  games : List GameRef
deriving Repr, DecidableEq

/-- `positionData[key]` after the stats pass. -/
structure PlayerData where
  name : String
  position : String
  ratings : List (Option ℚ)
  games : List GameRef
  averageRating : ℚ
  gamesPlayed : ℕ
  bestRating : ℚ
  worstRating : ℚ
deriving Repr, DecidableEq

/-- The key `${player.name}_${player.position}`. -/
def positionKey (p : Player) : String := p.name ++ "_" ++ p.position

/-- The `games` entry recorded for player `p` appearing in game `g`. -/
def mkGameRef (g : GameData) (p : Player) : GameRef :=
  { opponent := if g.awayTeam = "NK Maribor" then g.homeTeam else g.awayTeam
    date := g.date
    rating := p.rating }

/-- One `game.players.forEach(player => ...)` step of the aggregation pass:
create `positionData[key]` if absent, then push the rating and game entry.
New keys are appended at the end (JS object insertion order). -/
def pushObs : List (String × PlayerAgg) → String → GameData → Player →
    List (String × PlayerAgg)
  | [], key, g, p =>
      [(key, { name := p.name, position := p.position,
               ratings := [p.rating], games := [mkGameRef g p] })]
  | (k, a) :: rest, key, g, p =>
      if k = key then
        (k, { a with ratings := a.ratings ++ [p.rating],
                     games := a.games ++ [mkGameRef g p] }) :: rest
      else
        (k, a) :: pushObs rest key g p

/-- The aggregation pass over all games (script.js 133-155).  Games whose
player list is empty are skipped by the `game.players.length > 0` guard. -/
def aggregateGames (games : List GameData) : List (String × PlayerAgg) :=
  games.foldl
    (fun acc g =>
      if g.players.length > 0 then
        g.players.foldl (fun acc2 p => pushObs acc2 (positionKey p) g p) acc
      else acc)
    []

/-- The non-null ratings of an aggregated player. -/
def validRatings (a : PlayerAgg) : List ℚ := a.ratings.filterMap id

/-- The stats pass for one entry (script.js 158-174): average rounded to one
decimal, count, `Math.max`/`Math.min` of the valid ratings; all zero when
there are no valid ratings. -/
def computeStats (a : PlayerAgg) : PlayerData :=
  match validRatings a with
  | [] =>
      { name := a.name, position := a.position, ratings := a.ratings,
        games := a.games, averageRating := 0, gamesPlayed := 0,
        bestRating := 0, worstRating := 0 }
  | v :: vs =>
      { name := a.name, position := a.position, ratings := a.ratings,
        games := a.games,
        averageRating := round1 ((validRatings a).sum / ((validRatings a).length : ℚ)),
        gamesPlayed := (validRatings a).length,
        bestRating := vs.foldl max v,
        worstRating := vs.foldl min v }

/-- `calculatePositionData` (script.js 129-175): aggregation pass followed by
the stats pass over each entry. -/
def calculatePositionData (games : List GameData) : List (String × PlayerData) :=
  (aggregateGames games).map (fun ka => (ka.1, computeStats ka.2))

/-! ## Dashboard: `calculateBestFormation` (public/script.js 177-229) -/

/-- An entry of `playerBestPositions` / `playersByPosition` / the formation:
the fields copied at script.js 186-192. -/
structure BestEntry where
  name : String
  position : String
  averageRating : ℚ
  gamesPlayed : ℕ
  bestRating : ℚ
deriving Repr, DecidableEq

/-- The entry built from a `positionData` value (script.js 186-192). -/
def mkBestEntry (pd : PlayerData) : BestEntry :=
  { name := pd.name, position := pd.position,
    averageRating := pd.averageRating, gamesPlayed := pd.gamesPlayed,
    bestRating := pd.bestRating }

/-- One step of the `playerBestPositions` pass (script.js 181-194): keep, for
each player name, the entry with the strictly larger average rating; an
existing key is updated in place, a new key is appended. -/
def setBest : List (String × BestEntry) → PlayerData → List (String × BestEntry)
  | [], pd => [(pd.name, mkBestEntry pd)]
  | (k, e) :: rest, pd =>
      if k = pd.name then
        (if pd.averageRating > e.averageRating then (k, mkBestEntry pd) :: rest
         else (k, e) :: rest)
      else
        (k, e) :: setBest rest pd

/-- `playerBestPositions`: fold over `Object.values(this.positionData)` in
insertion order. -/
def playerBestPositions (games : List GameData) : List (String × BestEntry) :=
  (calculatePositionData games).foldl (fun acc ka => setBest acc ka.2) []

/-- The four per-position buckets of `playersByPosition` (script.js 197-202). -/
structure PositionLists where
  goalkeepers : List BestEntry
  defenders : List BestEntry
  midfielders : List BestEntry
  forwards : List BestEntry
deriving Repr, DecidableEq

/-- One `Object.values(playerBestPositions).forEach` step (script.js 204-208):
push the player onto the bucket named by their position, provided that bucket
exists and the average rating is positive. -/
def pushByPosition (pls : PositionLists) (e : BestEntry) : PositionLists :=
  if 0 < e.averageRating then
    if e.position = "Goalkeeper" then { pls with goalkeepers := pls.goalkeepers ++ [e] }
    else if e.position = "Defender" then { pls with defenders := pls.defenders ++ [e] }
    else if e.position = "Midfielder" then { pls with midfielders := pls.midfielders ++ [e] }
    else if e.position = "Forward" then { pls with forwards := pls.forwards ++ [e] }
    else pls
  else pls

/-- `playersByPosition` after the grouping pass. -/
def playersByPosition (games : List GameData) : PositionLists :=
  (playerBestPositions games).foldl (fun pls ke => pushByPosition pls ke.2) ⟨[], [], [], []⟩

/-- Insert into a list sorted by descending key, after every element whose key
is at least the inserted key. -/
def insertDescBy (key : α → ℚ) (x : α) : List α → List α
  | [] => [x]
  | y :: ys => if key x ≤ key y then y :: insertDescBy key x ys else x :: y :: ys

/-- Stable sort by descending key: the unique output of the ECMAScript stable
`Array.prototype.sort` under the comparator `(a, b) => key(b) - key(a)`
(script.js 210-213 for average ratings, scraper.js 699 for ratings). -/
def sortDescBy (key : α → ℚ) (l : List α) : List α :=
  l.foldl (fun acc x => insertDescBy key x acc) []

/-- The stable descending sort applied to each bucket (script.js 210-213). -/
def sortedPositions (games : List GameData) : PositionLists :=
  let pls := playersByPosition games
  { goalkeepers := sortDescBy (·.averageRating) pls.goalkeepers
    defenders := sortDescBy (·.averageRating) pls.defenders
    midfielders := sortDescBy (·.averageRating) pls.midfielders
    forwards := sortDescBy (·.averageRating) pls.forwards }

/-- The 4-4-2 formation (script.js 216-228): each slot takes a fixed index of
its position's sorted bucket, `null` (`none`) when out of range. -/
structure Formation where
  GK : Option BestEntry
  LB : Option BestEntry
  LCB : Option BestEntry
  RCB : Option BestEntry
  RB : Option BestEntry
  LM : Option BestEntry
  LCM : Option BestEntry
  RCM : Option BestEntry
  RM : Option BestEntry
  LF : Option BestEntry
  RF : Option BestEntry
deriving Repr, DecidableEq

/-- `calculateBestFormation` (script.js 177-229). -/
def calculateBestFormation (games : List GameData) : Formation :=
  let s := sortedPositions games
  { GK := s.goalkeepers[0]?
    LB := s.defenders[0]?, LCB := s.defenders[1]?
    RCB := s.defenders[2]?, RB := s.defenders[3]?
    LM := s.midfielders[0]?, LCM := s.midfielders[1]?
    RCM := s.midfielders[2]?, RM := s.midfielders[3]?
    LF := s.forwards[0]?, RF := s.forwards[1]? }

/-- The goalkeeper slot list of a formation. -/
def gkSlots (f : Formation) : List (Option BestEntry) := [f.GK]

/-- The defender slot list of a formation, left to right. -/
def defenderSlots (f : Formation) : List (Option BestEntry) := [f.LB, f.LCB, f.RCB, f.RB]

/-- The midfielder slot list of a formation, left to right. -/
def midfielderSlots (f : Formation) : List (Option BestEntry) := [f.LM, f.LCM, f.RCM, f.RM]

/-- The forward slot list of a formation, left to right. -/
def forwardSlots (f : Formation) : List (Option BestEntry) := [f.LF, f.RF]

/-- All players actually assigned to a slot of the formation. -/
def assignedPlayers (f : Formation) : List BestEntry :=
  (gkSlots f ++ defenderSlots f ++ midfielderSlots f ++ forwardSlots f).filterMap id

/-! ## Properties of the stable descending sort -/

/-- A list is sorted by descending key. -/
def SortedDescBy (key : α → ℚ) (l : List α) : Prop :=
  l.Pairwise (fun a b => key b ≤ key a)

theorem insertDescBy_perm (key : α → ℚ) (x : α) (l : List α) :
    (insertDescBy key x l).Perm (x :: l) := by
  induction l with
  | nil => simp [insertDescBy]
  | cons y ys ih =>
    simp only [insertDescBy]
    split
    · exact (ih.cons y).trans (List.Perm.swap x y ys)
    · exact List.Perm.refl _

theorem insertDescBy_sorted (key : α → ℚ) (x : α) {l : List α}
    (h : SortedDescBy key l) : SortedDescBy key (insertDescBy key x l) := by
  induction l with
  | nil => simp [insertDescBy, SortedDescBy]
  | cons y ys ih =>
    rcases List.pairwise_cons.mp h with ⟨hy, hys⟩
    simp only [insertDescBy]
    split
    · refine List.pairwise_cons.mpr ⟨?_, ih hys⟩
      intro b hb
      rcases List.mem_cons.mp ((insertDescBy_perm key x ys).mem_iff.mp hb) with hb | hb
      · subst hb; assumption
      · exact hy b hb
    · rename_i hlt
      refine List.pairwise_cons.mpr ⟨?_, h⟩
      intro b hb
      rcases List.mem_cons.mp hb with hb | hb
      · subst hb; exact le_of_not_le hlt
      · exact le_trans (hy b hb) (le_of_not_le hlt)

theorem sortDescBy_foldl_perm (key : α → ℚ) :
    ∀ (l acc : List α),
      (l.foldl (fun a x => insertDescBy key x a) acc).Perm (acc ++ l)
  | [], acc => by simp
  | x :: xs, acc => by
    simp only [List.foldl_cons]
    refine (sortDescBy_foldl_perm key xs (insertDescBy key x acc)).trans ?_
    refine (List.Perm.append_right xs (insertDescBy_perm key x acc)).trans ?_
    exact (List.perm_middle).symm

/-- The sort is a permutation of its input. -/
theorem sortDescBy_perm (key : α → ℚ) (l : List α) :
    (sortDescBy key l).Perm l := by
  simpa using sortDescBy_foldl_perm key l []

theorem sortDescBy_foldl_sorted (key : α → ℚ) :
    ∀ (l acc : List α), SortedDescBy key acc →
      SortedDescBy key (l.foldl (fun a x => insertDescBy key x a) acc)
  | [], acc, h => h
  | x :: xs, acc, h => by
    simp only [List.foldl_cons]
    exact sortDescBy_foldl_sorted key xs _ (insertDescBy_sorted key x h)

/-- The sort output is sorted by descending key. -/
theorem sortDescBy_sorted (key : α → ℚ) (l : List α) :
    SortedDescBy key (sortDescBy key l) :=
  sortDescBy_foldl_sorted key l [] (by simp [SortedDescBy])

theorem filter_insertDescBy (key : α → ℚ) (q : ℚ) (x : α) {l : List α}
    (hs : SortedDescBy key l) :
    (insertDescBy key x l).filter (fun e => decide (key e = q)) =
      if key x = q then
        l.filter (fun e => decide (key e = q)) ++ [x]
      else
        l.filter (fun e => decide (key e = q)) := by
  induction l with
  | nil => by_cases hx : key x = q <;> simp [insertDescBy, hx]
  | cons y ys ih =>
    rcases List.pairwise_cons.mp hs with ⟨hy, hys⟩
    simp only [insertDescBy]
    split
    · by_cases hyq : key y = q <;> by_cases hx : key x = q <;>
        simp [List.filter_cons, hyq, hx, ih hys]
    · rename_i hlt
      by_cases hx : key x = q
      · have hnil : (y :: ys).filter (fun e => decide (key e = q)) = [] := by
          rw [List.filter_eq_nil_iff]
          intro b hb
          have hble : key b ≤ key y := by
            rcases List.mem_cons.mp hb with hb | hb
            · subst hb; exact le_refl _
            · exact hy b hb
          have : key b < q := lt_of_le_of_lt hble (hx ▸ lt_of_not_le hlt)
          simp [ne_of_lt this]
        simp [List.filter_cons, hx, hnil]
      · by_cases hyq : key y = q <;> simp [List.filter_cons, hx, hyq]

theorem sortDescBy_foldl_filter (key : α → ℚ) (q : ℚ) :
    ∀ (l acc : List α), SortedDescBy key acc →
      (l.foldl (fun a x => insertDescBy key x a) acc).filter
          (fun e => decide (key e = q)) =
        acc.filter (fun e => decide (key e = q)) ++
          l.filter (fun e => decide (key e = q))
  | [], acc, _ => by simp
  | x :: xs, acc, h => by
    simp only [List.foldl_cons]
    rw [sortDescBy_foldl_filter key q xs _ (insertDescBy_sorted key x h),
      filter_insertDescBy key q x h]
    by_cases hx : key x = q <;> simp [List.filter_cons, hx]

/-- Stability of the sort: the subsequence of elements with any fixed key
value is unchanged, i.e. ties keep their original relative order. -/
theorem sortDescBy_filter (key : α → ℚ) (q : ℚ) (l : List α) :
    (sortDescBy key l).filter (fun e => decide (key e = q)) =
      l.filter (fun e => decide (key e = q)) := by
  simpa using sortDescBy_foldl_filter key q l [] (by simp [SortedDescBy])

/-! ## Slot lemmas -/

theorem filterMap_slots_one (l : List α) :
    ([l[0]?] : List (Option α)).filterMap id = l.take 1 := by
  match l with
  | [] => simp
  | a :: t => simp

theorem filterMap_slots_two (l : List α) :
    ([l[0]?, l[1]?] : List (Option α)).filterMap id = l.take 2 := by
  match l with
  | [] => simp
  | [a] => simp
  | a :: b :: t => simp

theorem filterMap_slots_four (l : List α) :
    ([l[0]?, l[1]?, l[2]?, l[3]?] : List (Option α)).filterMap id = l.take 4 := by
  match l with
  | [] => simp
  | [a] => simp
  | [a, b] => simp
  | [a, b, c] => simp
  | a :: b :: c :: d :: t => simp

/-! ## Invariants of the aggregation pass -/

theorem computeStats_name (a : PlayerAgg) : (computeStats a).name = a.name := by
  unfold computeStats; split <;> rfl

theorem computeStats_position (a : PlayerAgg) : (computeStats a).position = a.position := by
  unfold computeStats; split <;> rfl

theorem computeStats_ratings (a : PlayerAgg) : (computeStats a).ratings = a.ratings := by
  unfold computeStats; split <;> rfl

theorem computeStats_avg (a : PlayerAgg) (h : validRatings a ≠ []) :
    (computeStats a).averageRating =
      round1 ((validRatings a).sum / ((validRatings a).length : ℚ)) := by
  unfold computeStats
  split
  · rename_i heq; exact absurd heq h
  · rfl

theorem computeStats_empty (a : PlayerAgg) (h : validRatings a = []) :
    (computeStats a).averageRating = 0 ∧ (computeStats a).bestRating = 0 ∧
      (computeStats a).worstRating = 0 := by
  unfold computeStats
  split
  · exact ⟨rfl, rfl, rfl⟩
  · rename_i v vs heq; rw [h] at heq; exact absurd heq (by simp)

theorem pushObs_keys (acc : List (String × PlayerAgg)) (key : String)
    (g : GameData) (p : Player) :
    (pushObs acc key g p).map Prod.fst =
      if key ∈ acc.map Prod.fst then acc.map Prod.fst
      else acc.map Prod.fst ++ [key] := by
  induction acc with
  | nil => simp [pushObs]
  | cons ka rest ih =>
    obtain ⟨k, a⟩ := ka
    simp only [pushObs]
    by_cases hk : k = key
    · subst hk; simp
    · simp only [hk, if_false, List.map_cons, ih]
      have : (key ∈ k :: rest.map Prod.fst) ↔ key ∈ rest.map Prod.fst := by
        constructor
        · intro hm
          rcases List.mem_cons.mp hm with hm | hm
          · exact absurd hm.symm hk
          · exact hm
        · exact List.mem_cons_of_mem _
      by_cases hmem : key ∈ rest.map Prod.fst <;> simp [hmem, this]

theorem pushObs_nodup_keys (acc : List (String × PlayerAgg)) (key : String)
    (g : GameData) (p : Player) (h : (acc.map Prod.fst).Nodup) :
    ((pushObs acc key g p).map Prod.fst).Nodup := by
  rw [pushObs_keys]
  split
  · exact h
  · rename_i hmem
    exact List.Nodup.append h (List.nodup_singleton key) (by simpa using hmem)

/-- Every entry of the aggregation dictionary has the key built from its own
name and position. -/
def KeyInv (acc : List (String × PlayerAgg)) : Prop :=
  ∀ ka ∈ acc, ka.1 = ka.2.name ++ "_" ++ ka.2.position

theorem pushObs_keyInv (acc : List (String × PlayerAgg)) (g : GameData)
    (p : Player) (h : KeyInv acc) : KeyInv (pushObs acc (positionKey p) g p) := by
  induction acc with
  | nil =>
    intro ka hka
    simp only [pushObs, List.mem_singleton] at hka
    subst hka; rfl
  | cons kb rest ih =>
    obtain ⟨k, a⟩ := kb
    have hk : k = a.name ++ "_" ++ a.position := h (k, a) (by simp)
    have hrest : KeyInv rest := fun ka hka => h ka (List.mem_cons_of_mem _ hka)
    intro ka hka
    simp only [pushObs] at hka
    split at hka
    · rcases List.mem_cons.mp hka with hka | hka
      · subst hka; exact hk
      · exact hrest ka hka
    · rcases List.mem_cons.mp hka with hka | hka
      · subst hka; exact hk
      · exact ih hrest ka hka

/-- The aggregation invariant: no duplicate keys, and each key records its
entry's name and position. -/
theorem aggregateGames_inv (games : List GameData) :
    ((aggregateGames games).map Prod.fst).Nodup ∧ KeyInv (aggregateGames games) := by
  have inner : ∀ (ps : List Player) (g : GameData) (acc : List (String × PlayerAgg)),
      (acc.map Prod.fst).Nodup ∧ KeyInv acc →
      (((ps.foldl (fun acc2 p => pushObs acc2 (positionKey p) g p) acc).map
          Prod.fst).Nodup ∧
        KeyInv (ps.foldl (fun acc2 p => pushObs acc2 (positionKey p) g p) acc)) := by
    intro ps
    induction ps with
    | nil => intro g acc h; exact h
    | cons p ps ih =>
      intro g acc h
      exact ih g _ ⟨pushObs_nodup_keys acc _ g p h.1, pushObs_keyInv acc g p h.2⟩
  have outer : ∀ (gs : List GameData) (acc : List (String × PlayerAgg)),
      (acc.map Prod.fst).Nodup ∧ KeyInv acc →
      (((gs.foldl (fun acc g => if g.players.length > 0 then
            g.players.foldl (fun acc2 p => pushObs acc2 (positionKey p) g p) acc
          else acc) acc).map Prod.fst).Nodup ∧
        KeyInv (gs.foldl (fun acc g => if g.players.length > 0 then
            g.players.foldl (fun acc2 p => pushObs acc2 (positionKey p) g p) acc
          else acc) acc)) := by
    intro gs
    induction gs with
    | nil => intro acc h; exact h
    | cons g gs ih =>
      intro acc h
      simp only [List.foldl_cons]
      split
      · exact ih _ (inner g.players g acc h)
      · exact ih _ h
  exact outer games [] ⟨List.nodup_nil, by intro ka hka; simp at hka⟩

/-- Keys of `calculatePositionData` are the aggregation keys. -/
theorem calculatePositionData_keys (games : List GameData) :
    (calculatePositionData games).map Prod.fst =
      (aggregateGames games).map Prod.fst := by
  simp [calculatePositionData, List.map_map, Function.comp]

/-- The `positionData` invariant after the stats pass. -/
theorem calculatePositionData_inv (games : List GameData) :
    ((calculatePositionData games).map Prod.fst).Nodup ∧
      ∀ kpd ∈ calculatePositionData games,
        kpd.1 = kpd.2.name ++ "_" ++ kpd.2.position := by
  obtain ⟨hnodup, hkey⟩ := aggregateGames_inv games
  constructor
  · rw [calculatePositionData_keys]; exact hnodup
  · intro kpd hkpd
    simp only [calculatePositionData, List.mem_map] at hkpd
    obtain ⟨ka, hka, hkpd⟩ := hkpd
    subst hkpd
    simpa [computeStats_name, computeStats_position] using hkey ka hka

/-- Two `positionData` entries with the same name and position coincide. -/
theorem calculatePositionData_unique (games : List GameData)
    {k k' : String} {pd pd' : PlayerData}
    (h : (k, pd) ∈ calculatePositionData games)
    (h' : (k', pd') ∈ calculatePositionData games)
    (hname : pd.name = pd'.name) (hpos : pd.position = pd'.position) :
    k = k' ∧ pd = pd' := by
  obtain ⟨hnodup, hkey⟩ := calculatePositionData_inv games
  have hk : k = pd.name ++ "_" ++ pd.position := hkey (k, pd) h
  have hk' : k' = pd'.name ++ "_" ++ pd'.position := hkey (k', pd') h'
  have hkk : k = k' := by rw [hk, hk', hname, hpos]
  subst hkk
  refine ⟨rfl, ?_⟩
  by_contra hne
  have := List.inj_on_of_nodup_map hnodup h h' rfl
  simp at this
  exact hne this

/-! ## Invariants of `playerBestPositions` -/

theorem setBest_keys (acc : List (String × BestEntry)) (pd : PlayerData) :
    (setBest acc pd).map Prod.fst =
      if pd.name ∈ acc.map Prod.fst then acc.map Prod.fst
      else acc.map Prod.fst ++ [pd.name] := by
  induction acc with
  | nil => simp [setBest]
  | cons ke rest ih =>
    obtain ⟨k, e⟩ := ke
    simp only [setBest]
    by_cases hk : k = pd.name
    · subst hk
      by_cases havg : pd.averageRating > e.averageRating <;> simp [havg]
    · simp only [hk, if_false, List.map_cons, ih]
      have : (pd.name ∈ k :: rest.map Prod.fst) ↔ pd.name ∈ rest.map Prod.fst := by
        constructor
        · intro hm
          rcases List.mem_cons.mp hm with hm | hm
          · exact absurd hm.symm hk
          · exact hm
        · exact List.mem_cons_of_mem _
      by_cases hmem : pd.name ∈ rest.map Prod.fst <;> simp [hmem, this]

theorem setBest_nodup_keys (acc : List (String × BestEntry)) (pd : PlayerData)
    (h : (acc.map Prod.fst).Nodup) : ((setBest acc pd).map Prod.fst).Nodup := by
  rw [setBest_keys]
  split
  · exact h
  · rename_i hmem
    exact List.Nodup.append h (List.nodup_singleton _) (by simpa using hmem)

/-- Every dictionary entry of `playerBestPositions` stores its own key as its
name. -/
def NameInv (acc : List (String × BestEntry)) : Prop :=
  ∀ ke ∈ acc, ke.2.name = ke.1

theorem setBest_nameInv (acc : List (String × BestEntry)) (pd : PlayerData)
    (h : NameInv acc) : NameInv (setBest acc pd) := by
  induction acc with
  | nil =>
    intro ke hke
    simp only [setBest, List.mem_singleton] at hke
    subst hke; rfl
  | cons kb rest ih =>
    obtain ⟨k, e⟩ := kb
    have hk : e.name = k := h (k, e) (by simp)
    have hrest : NameInv rest := fun ke hke => h ke (List.mem_cons_of_mem _ hke)
    intro ke hke
    simp only [setBest] at hke
    split at hke
    · rename_i hkeq
      split at hke <;> rcases List.mem_cons.mp hke with hke | hke
      · subst hke; simpa [mkBestEntry] using hkeq.symm
      · exact hrest ke hke
      · subst hke; exact hk
      · exact hrest ke hke
    · rcases List.mem_cons.mp hke with hke | hke
      · subst hke; exact hk
      · exact ih hrest ke hke

theorem setBest_values (acc : List (String × BestEntry)) (pd : PlayerData) :
    ∀ v ∈ (setBest acc pd).map Prod.snd,
      v ∈ acc.map Prod.snd ∨ v = mkBestEntry pd := by
  induction acc with
  | nil =>
    intro v hv
    simp only [setBest, List.map_cons, List.map_nil, List.mem_singleton] at hv
    exact Or.inr hv
  | cons ke rest ih =>
    obtain ⟨k, e⟩ := ke
    intro v hv
    simp only [setBest] at hv
    split at hv
    · split at hv <;> rcases List.mem_cons.mp hv with hv | hv
      · exact Or.inr hv
      · exact Or.inl (List.mem_cons_of_mem _ hv)
      · exact Or.inl (by simp [hv])
      · exact Or.inl (List.mem_cons_of_mem _ hv)
    · rcases List.mem_cons.mp hv with hv | hv
      · exact Or.inl (by simp [hv])
      · rcases ih v hv with hv | hv
        · exact Or.inl (List.mem_cons_of_mem _ hv)
        · exact Or.inr hv

/-- The `playerBestPositions` invariant: no duplicate keys, names match keys,
and every stored value is built from some `positionData` entry. -/
theorem playerBestPositions_inv (games : List GameData) :
    ((playerBestPositions games).map Prod.fst).Nodup ∧
      NameInv (playerBestPositions games) ∧
      ∀ v ∈ (playerBestPositions games).map Prod.snd,
        ∃ kpd ∈ calculatePositionData games, v = mkBestEntry kpd.2 := by
  have step : ∀ (l : List (String × PlayerData)) (acc : List (String × BestEntry)),
      (acc.map Prod.fst).Nodup → NameInv acc →
      (∀ v ∈ acc.map Prod.snd, ∃ kpd ∈ calculatePositionData games, v = mkBestEntry kpd.2) →
      (∀ kpd ∈ l, kpd ∈ calculatePositionData games) →
      (((l.foldl (fun acc ka => setBest acc ka.2) acc).map Prod.fst).Nodup ∧
        NameInv (l.foldl (fun acc ka => setBest acc ka.2) acc) ∧
        ∀ v ∈ (l.foldl (fun acc ka => setBest acc ka.2) acc).map Prod.snd,
          ∃ kpd ∈ calculatePositionData games, v = mkBestEntry kpd.2) := by
    intro l
    induction l with
    | nil => intro acc h1 h2 h3 _; exact ⟨h1, h2, h3⟩
    | cons ka rest ih =>
      intro acc h1 h2 h3 h4
      simp only [List.foldl_cons]
      refine ih _ (setBest_nodup_keys acc ka.2 h1) (setBest_nameInv acc ka.2 h2) ?_
        (fun kpd hk => h4 kpd (List.mem_cons_of_mem _ hk))
      intro v hv
      rcases setBest_values acc ka.2 v hv with hv | hv
      · exact h3 v hv
      · exact ⟨ka, h4 ka (List.mem_cons_self _ _), hv⟩
  exact step (calculatePositionData games) [] List.nodup_nil
    (by intro ke hke; simp at hke) (by intro v hv; simp at hv) (fun kpd h => h)

/-- The names of the values of `playerBestPositions` are pairwise distinct. -/
theorem playerBestPositions_names_nodup (games : List GameData) :
    (((playerBestPositions games).map Prod.snd).map (fun e => e.name)).Nodup := by
  obtain ⟨h1, h2, _⟩ := playerBestPositions_inv games
  have : ((playerBestPositions games).map Prod.snd).map (fun e => e.name) =
      (playerBestPositions games).map Prod.fst := by
    rw [List.map_map]
    exact List.map_congr_left (fun ke hke => h2 ke hke)
  rw [this]
  exact h1

/-! ## Characterisation of `playersByPosition` -/

/-- The push condition of script.js 205: the bucket for the player's position
exists and the average rating is positive. -/
def bucketPred (pos : String) (e : BestEntry) : Bool :=
  decide (e.position = pos ∧ 0 < e.averageRating)

theorem pushByPosition_goalkeepers (pls : PositionLists) (e : BestEntry) :
    (pushByPosition pls e).goalkeepers =
      pls.goalkeepers ++ if bucketPred "Goalkeeper" e then [e] else [] := by
  by_cases h1 : 0 < e.averageRating
  · simp only [pushByPosition, if_pos h1, bucketPred]
    split_ifs with h2 h3 h4 h5 <;> simp_all
  · simp [pushByPosition, bucketPred, h1]

theorem pushByPosition_defenders (pls : PositionLists) (e : BestEntry) :
    (pushByPosition pls e).defenders =
      pls.defenders ++ if bucketPred "Defender" e then [e] else [] := by
  by_cases h1 : 0 < e.averageRating
  · simp only [pushByPosition, if_pos h1, bucketPred]
    split_ifs with h2 h3 h4 h5 <;> simp_all
  · simp [pushByPosition, bucketPred, h1]

theorem pushByPosition_midfielders (pls : PositionLists) (e : BestEntry) :
    (pushByPosition pls e).midfielders =
      pls.midfielders ++ if bucketPred "Midfielder" e then [e] else [] := by
  by_cases h1 : 0 < e.averageRating
  · simp only [pushByPosition, if_pos h1, bucketPred]
    split_ifs with h2 h3 h4 h5 <;> simp_all
  · simp [pushByPosition, bucketPred, h1]

theorem pushByPosition_forwards (pls : PositionLists) (e : BestEntry) :
    (pushByPosition pls e).forwards =
      pls.forwards ++ if bucketPred "Forward" e then [e] else [] := by
  by_cases h1 : 0 < e.averageRating
  · simp only [pushByPosition, if_pos h1, bucketPred]
    split_ifs with h2 h3 h4 h5 <;> simp_all
  · simp [pushByPosition, bucketPred, h1]

/-! ## Claim C1 -/

/-- C1: for every player aggregated by the dashboard's
`calculatePositionData`, the computed `averageRating` equals the arithmetic
mean of that player's non-null, non-undefined ratings across all games,
rounded to one decimal place. -/
theorem claim1_averageRating_is_rounded_mean (games : List GameData)
    (k : String) (pd : PlayerData)
    (hmem : (k, pd) ∈ calculatePositionData games)
    (hne : pd.ratings.filterMap id ≠ []) :
    pd.averageRating =
      round1 ((pd.ratings.filterMap id).sum /
        ((pd.ratings.filterMap id).length : ℚ)) := by
  simp only [calculatePositionData, List.mem_map] at hmem
  obtain ⟨ka, hka, heq⟩ := hmem
  have h2 : computeStats ka.2 = pd := congrArg Prod.snd heq
  have hr : pd.ratings = ka.2.ratings := by
    rw [← h2, computeStats_ratings]
  have hv : validRatings ka.2 = pd.ratings.filterMap id := by
    rw [hr]; rfl
  have h3 := computeStats_avg ka.2 (by rw [hv]; exact hne)
  rw [hv, h2] at h3
  exact h3

def c1Game1 : GameData :=
  { id := "g1", url := "u1", date := "2025-08-01", homeTeam := "NK Maribor",
    awayTeam := "NK Celje", score := "2-1",
    players := [⟨"Ana Kos", some 7, "Defender", 90, true⟩], hasRatings := true }

def c1Game2 : GameData :=
  { id := "g2", url := "u2", date := "2025-08-08", homeTeam := "NK Celje",
    awayTeam := "NK Maribor", score := "0-0",
    players := [⟨"Ana Kos", some 8, "Defender", 90, true⟩], hasRatings := true }

def c1pd : PlayerData :=
  { name := "Ana Kos", position := "Defender", ratings := [some 7, some 8],
    games := [⟨"NK Celje", "2025-08-01", some 7⟩, ⟨"NK Celje", "2025-08-08", some 8⟩],
    averageRating := 15/2, gamesPlayed := 2, bestRating := 8, worstRating := 7 }

unseal Rat.add Rat.mul Rat.inv in
/-- Witness for C1 at a concrete two-game input. -/
theorem claim1_witness :
    (("Ana Kos_Defender", c1pd) ∈ calculatePositionData [c1Game1, c1Game2] ∧
      c1pd.ratings.filterMap id ≠ []) ∧
    c1pd.averageRating =
      round1 ((c1pd.ratings.filterMap id).sum /
        ((c1pd.ratings.filterMap id).length : ℚ)) :=
  ⟨⟨by decide, by decide⟩,
    claim1_averageRating_is_rounded_mean [c1Game1, c1Game2] "Ana Kos_Defender" c1pd
      (by decide) (by decide)⟩

/-! ## Claim C2 -/

/-- C2: the best formation assigns at most 1 goalkeeper, 4 defenders,
4 midfielders and 2 forwards; each position's slots are exactly the first
entries of that position's bucket sorted by descending average rating, so the
slots are filled in descending average-rating order. -/
theorem claim2_formation_caps_and_descending_order (games : List GameData) :
    ((gkSlots (calculateBestFormation games)).filterMap id).length ≤ 1 ∧
    ((defenderSlots (calculateBestFormation games)).filterMap id).length ≤ 4 ∧
    ((midfielderSlots (calculateBestFormation games)).filterMap id).length ≤ 4 ∧
    ((forwardSlots (calculateBestFormation games)).filterMap id).length ≤ 2 ∧
    ((gkSlots (calculateBestFormation games)).filterMap id =
      ((sortedPositions games).goalkeepers).take 1) ∧
    ((defenderSlots (calculateBestFormation games)).filterMap id =
      ((sortedPositions games).defenders).take 4) ∧
    ((midfielderSlots (calculateBestFormation games)).filterMap id =
      ((sortedPositions games).midfielders).take 4) ∧
    ((forwardSlots (calculateBestFormation games)).filterMap id =
      ((sortedPositions games).forwards).take 2) ∧
    SortedDescBy (fun e => e.averageRating)
      ((gkSlots (calculateBestFormation games)).filterMap id) ∧
    SortedDescBy (fun e => e.averageRating)
      ((defenderSlots (calculateBestFormation games)).filterMap id) ∧
    SortedDescBy (fun e => e.averageRating)
      ((midfielderSlots (calculateBestFormation games)).filterMap id) ∧
    SortedDescBy (fun e => e.averageRating)
      ((forwardSlots (calculateBestFormation games)).filterMap id) := by
  have hgk : (gkSlots (calculateBestFormation games)).filterMap id =
      ((sortedPositions games).goalkeepers).take 1 :=
    filterMap_slots_one _
  have hdef : (defenderSlots (calculateBestFormation games)).filterMap id =
      ((sortedPositions games).defenders).take 4 :=
    filterMap_slots_four _
  have hmid : (midfielderSlots (calculateBestFormation games)).filterMap id =
      ((sortedPositions games).midfielders).take 4 :=
    filterMap_slots_four _
  have hfwd : (forwardSlots (calculateBestFormation games)).filterMap id =
      ((sortedPositions games).forwards).take 2 :=
    filterMap_slots_two _
  have sgk : SortedDescBy (fun e => e.averageRating)
      ((sortedPositions games).goalkeepers) :=
    sortDescBy_sorted _ _
  have sdef : SortedDescBy (fun e => e.averageRating)
      ((sortedPositions games).defenders) :=
    sortDescBy_sorted _ _
  have smid : SortedDescBy (fun e => e.averageRating)
      ((sortedPositions games).midfielders) :=
    sortDescBy_sorted _ _
  have sfwd : SortedDescBy (fun e => e.averageRating)
      ((sortedPositions games).forwards) :=
    sortDescBy_sorted _ _
  refine ⟨?_, ?_, ?_, ?_, hgk, hdef, hmid, hfwd, ?_, ?_, ?_, ?_⟩
  · rw [hgk]; exact List.length_take_le 1 _
  · rw [hdef]; exact List.length_take_le 4 _
  · rw [hmid]; exact List.length_take_le 4 _
  · rw [hfwd]; exact List.length_take_le 2 _
  · rw [hgk]; exact List.Pairwise.sublist (List.take_sublist _ _) sgk
  · rw [hdef]; exact List.Pairwise.sublist (List.take_sublist _ _) sdef
  · rw [hmid]; exact List.Pairwise.sublist (List.take_sublist _ _) smid
  · rw [hfwd]; exact List.Pairwise.sublist (List.take_sublist _ _) sfwd

/-! ## Claim C8 -/

/-- C8: the per-position sort by descending average rating applies no
tie-breaking rule: for every rating value, the players holding it appear in
the sorted bucket in exactly their original insertion order, so of two
equally rated players the earlier-inserted one takes the higher slot. -/
theorem claim8_equal_ratings_keep_insertion_order (games : List GameData) (q : ℚ) :
    ((sortedPositions games).goalkeepers.filter (fun e => decide (e.averageRating = q)) =
      (playersByPosition games).goalkeepers.filter (fun e => decide (e.averageRating = q))) ∧
    ((sortedPositions games).defenders.filter (fun e => decide (e.averageRating = q)) =
      (playersByPosition games).defenders.filter (fun e => decide (e.averageRating = q))) ∧
    ((sortedPositions games).midfielders.filter (fun e => decide (e.averageRating = q)) =
      (playersByPosition games).midfielders.filter (fun e => decide (e.averageRating = q))) ∧
    ((sortedPositions games).forwards.filter (fun e => decide (e.averageRating = q)) =
      (playersByPosition games).forwards.filter (fun e => decide (e.averageRating = q))) :=
  ⟨sortDescBy_filter _ q _, sortDescBy_filter _ q _,
    sortDescBy_filter _ q _, sortDescBy_filter _ q _⟩

/-! ## Tracing formation slots back to `positionData` -/

theorem foldl_pushByPosition (vs : List BestEntry) :
    ∀ pls : PositionLists,
      ((vs.foldl pushByPosition pls).goalkeepers =
          pls.goalkeepers ++ vs.filter (bucketPred "Goalkeeper")) ∧
      ((vs.foldl pushByPosition pls).defenders =
          pls.defenders ++ vs.filter (bucketPred "Defender")) ∧
      ((vs.foldl pushByPosition pls).midfielders =
          pls.midfielders ++ vs.filter (bucketPred "Midfielder")) ∧
      ((vs.foldl pushByPosition pls).forwards =
          pls.forwards ++ vs.filter (bucketPred "Forward")) := by
  induction vs with
  | nil => intro pls; simp
  | cons v vs ih =>
    intro pls
    simp only [List.foldl_cons, List.filter_cons]
    obtain ⟨h1, h2, h3, h4⟩ := ih (pushByPosition pls v)
    refine ⟨?_, ?_, ?_, ?_⟩
    · rw [h1, pushByPosition_goalkeepers]
      by_cases hv : bucketPred "Goalkeeper" v <;> simp [hv]
    · rw [h2, pushByPosition_defenders]
      by_cases hv : bucketPred "Defender" v <;> simp [hv]
    · rw [h3, pushByPosition_midfielders]
      by_cases hv : bucketPred "Midfielder" v <;> simp [hv]
    · rw [h4, pushByPosition_forwards]
      by_cases hv : bucketPred "Forward" v <;> simp [hv]

/-- Each bucket of `playersByPosition` is the filter of the
`playerBestPositions` values by its push condition, in order. -/
theorem playersByPosition_eq (games : List GameData) :
    ((playersByPosition games).goalkeepers =
        ((playerBestPositions games).map Prod.snd).filter (bucketPred "Goalkeeper")) ∧
    ((playersByPosition games).defenders =
        ((playerBestPositions games).map Prod.snd).filter (bucketPred "Defender")) ∧
    ((playersByPosition games).midfielders =
        ((playerBestPositions games).map Prod.snd).filter (bucketPred "Midfielder")) ∧
    ((playersByPosition games).forwards =
        ((playerBestPositions games).map Prod.snd).filter (bucketPred "Forward")) := by
  have hfold : playersByPosition games =
      ((playerBestPositions games).map Prod.snd).foldl pushByPosition ⟨[], [], [], []⟩ := by
    rw [playersByPosition, List.foldl_map]
  rw [hfold]
  simpa using foldl_pushByPosition ((playerBestPositions games).map Prod.snd) ⟨[], [], [], []⟩

theorem disjoint_filter_names (vs : List BestEntry)
    (h : (vs.map (fun e => e.name)).Nodup) (p q : BestEntry → Bool)
    (hpq : ∀ e, p e → q e → False) :
    List.Disjoint ((vs.filter p).map (fun e => e.name))
      ((vs.filter q).map (fun e => e.name)) := by
  intro x hx hx2
  simp only [List.mem_map, List.mem_filter] at hx hx2
  obtain ⟨e1, ⟨he1, hp1⟩, hn1⟩ := hx
  obtain ⟨e2, ⟨he2, hp2⟩, hn2⟩ := hx2
  have : e1 = e2 := List.inj_on_of_nodup_map h he1 he2 (by rw [hn1, hn2])
  subst this
  exact hpq e1 hp1 hp2

theorem bucketPred_disjoint {s t : String} (hst : s ≠ t) (e : BestEntry) :
    bucketPred s e → bucketPred t e → False := by
  simp only [bucketPred, decide_eq_true_eq]
  intro h1 h2
  exact hst (h1.1 ▸ h2.1 ▸ rfl)

/-- The names across all four buckets of `playersByPosition` are pairwise
distinct. -/
theorem buckets_names_nodup (games : List GameData) :
    (((playersByPosition games).goalkeepers ++ (playersByPosition games).defenders ++
        (playersByPosition games).midfielders ++ (playersByPosition games).forwards).map
      (fun e => e.name)).Nodup := by
  obtain ⟨h1, h2, h3, h4⟩ := playersByPosition_eq games
  have hvs := playerBestPositions_names_nodup games
  set vs := (playerBestPositions games).map Prod.snd with hvsdef
  rw [h1, h2, h3, h4]
  have hnd : ∀ p : BestEntry → Bool, ((vs.filter p).map (fun e => e.name)).Nodup :=
    fun p => List.Nodup.sublist (List.Sublist.map _ (List.filter_sublist vs)) hvs
  have hdisj : ∀ p q : String, p ≠ q →
      List.Disjoint ((vs.filter (bucketPred p)).map (fun e => e.name))
        ((vs.filter (bucketPred q)).map (fun e => e.name)) :=
    fun p q hpq => disjoint_filter_names vs hvs _ _ (fun e => bucketPred_disjoint hpq e)
  simp only [List.append_assoc, List.map_append, List.nodup_append,
    List.disjoint_append_right]
  refine ⟨hnd _, ⟨hnd _, ⟨hnd _, hnd _, ?_⟩, ?_, ?_⟩, ?_, ?_, ?_⟩
  · exact hdisj "Midfielder" "Forward" (by decide)
  · exact hdisj "Defender" "Midfielder" (by decide)
  · exact hdisj "Defender" "Forward" (by decide)
  · exact hdisj "Goalkeeper" "Defender" (by decide)
  · exact hdisj "Goalkeeper" "Midfielder" (by decide)
  · exact hdisj "Goalkeeper" "Forward" (by decide)

/-- The assigned formation players are the per-position takes of the sorted
buckets, concatenated. -/
theorem assignedPlayers_eq (games : List GameData) :
    assignedPlayers (calculateBestFormation games) =
      ((sortedPositions games).goalkeepers).take 1 ++
        ((sortedPositions games).defenders).take 4 ++
        ((sortedPositions games).midfielders).take 4 ++
        ((sortedPositions games).forwards).take 2 := by
  have e1 : (gkSlots (calculateBestFormation games)).filterMap id =
      ((sortedPositions games).goalkeepers).take 1 := filterMap_slots_one _
  have e2 : (defenderSlots (calculateBestFormation games)).filterMap id =
      ((sortedPositions games).defenders).take 4 := filterMap_slots_four _
  have e3 : (midfielderSlots (calculateBestFormation games)).filterMap id =
      ((sortedPositions games).midfielders).take 4 := filterMap_slots_four _
  have e4 : (forwardSlots (calculateBestFormation games)).filterMap id =
      ((sortedPositions games).forwards).take 2 := filterMap_slots_two _
  show (gkSlots (calculateBestFormation games) ++ defenderSlots (calculateBestFormation games) ++
      midfielderSlots (calculateBestFormation games) ++
      forwardSlots (calculateBestFormation games)).filterMap id = _
  rw [List.filterMap_append, List.filterMap_append, List.filterMap_append, e1, e2, e3, e4]

/-- Every assigned formation player traces back to a `positionData` entry and
has a positive average rating. -/
theorem assigned_mem_trace (games : List GameData) :
    ∀ e ∈ assignedPlayers (calculateBestFormation games),
      (∃ kpd ∈ calculatePositionData games, e = mkBestEntry kpd.2) ∧
        0 < e.averageRating := by
  intro e he
  rw [assignedPlayers_eq] at he
  obtain ⟨h1, h2, h3, h4⟩ := playersByPosition_eq games
  have hmem : e ∈ (playersByPosition games).goalkeepers ∨
      e ∈ (playersByPosition games).defenders ∨
      e ∈ (playersByPosition games).midfielders ∨
      e ∈ (playersByPosition games).forwards := by
    simp only [List.mem_append] at he
    rcases he with ((hgk | hdf) | hmf) | hfw
    · exact Or.inl ((sortDescBy_perm _ _).mem_iff.mp (List.mem_of_mem_take hgk))
    · exact Or.inr (Or.inl ((sortDescBy_perm _ _).mem_iff.mp (List.mem_of_mem_take hdf)))
    · exact Or.inr (Or.inr (Or.inl
        ((sortDescBy_perm _ _).mem_iff.mp (List.mem_of_mem_take hmf))))
    · exact Or.inr (Or.inr (Or.inr
        ((sortDescBy_perm _ _).mem_iff.mp (List.mem_of_mem_take hfw))))
  have hfil : e ∈ (playerBestPositions games).map Prod.snd ∧ 0 < e.averageRating := by
    rcases hmem with hm | hm | hm | hm
    · rw [h1] at hm
      rcases List.mem_filter.mp hm with ⟨hm, hp⟩
      exact ⟨hm, (by simpa [bucketPred] using hp : _ ∧ _).2⟩
    · rw [h2] at hm
      rcases List.mem_filter.mp hm with ⟨hm, hp⟩
      exact ⟨hm, (by simpa [bucketPred] using hp : _ ∧ _).2⟩
    · rw [h3] at hm
      rcases List.mem_filter.mp hm with ⟨hm, hp⟩
      exact ⟨hm, (by simpa [bucketPred] using hp : _ ∧ _).2⟩
    · rw [h4] at hm
      rcases List.mem_filter.mp hm with ⟨hm, hp⟩
      exact ⟨hm, (by simpa [bucketPred] using hp : _ ∧ _).2⟩
  obtain ⟨_, _, htrace⟩ := playerBestPositions_inv games
  exact ⟨htrace e hfil.1, hfil.2⟩

/-! ## Claim C3 -/

/-- C3: an aggregated player with no valid rating gets average, best and
worst ratings of zero, and no formation slot is ever occupied by that
aggregated (name, position) entry. -/
theorem claim3_zero_ratings_excluded (games : List GameData)
    (k : String) (pd : PlayerData)
    (hmem : (k, pd) ∈ calculatePositionData games)
    (hempty : pd.ratings.filterMap id = []) :
    pd.averageRating = 0 ∧ pd.bestRating = 0 ∧ pd.worstRating = 0 ∧
      ∀ e ∈ assignedPlayers (calculateBestFormation games),
        ¬(e.name = pd.name ∧ e.position = pd.position) := by
  have hmem' := hmem
  simp only [calculatePositionData, List.mem_map] at hmem'
  obtain ⟨ka, hka, heq⟩ := hmem'
  have h2 : computeStats ka.2 = pd := congrArg Prod.snd heq
  have hv : validRatings ka.2 = [] := by
    have : pd.ratings = ka.2.ratings := by rw [← h2, computeStats_ratings]
    rw [validRatings, ← this]
    exact hempty
  obtain ⟨hz1, hz2, hz3⟩ := computeStats_empty ka.2 hv
  rw [h2] at hz1 hz2 hz3
  refine ⟨hz1, hz2, hz3, ?_⟩
  intro e he ⟨hname, hpos⟩
  obtain ⟨⟨kpd, hkpd, hetr⟩, hpose⟩ := assigned_mem_trace games e he
  have hname2 : kpd.2.name = pd.name := by
    rw [← hname, hetr]; rfl
  have hpos2 : kpd.2.position = pd.position := by
    rw [← hpos, hetr]; rfl
  obtain ⟨-, hpdeq⟩ := calculatePositionData_unique games
    (show (kpd.1, kpd.2) ∈ calculatePositionData games from hkpd)
    hmem hname2 hpos2
  have : e.averageRating = pd.averageRating := by
    rw [hetr, ← hpdeq]; rfl
  rw [this, hz1] at hpose
  exact lt_irrefl 0 hpose

def c3Game : GameData :=
  { id := "g3", url := "u3", date := "2025-08-01", homeTeam := "NK Maribor",
    awayTeam := "NK Celje", score := "1-1",
    players := [⟨"Bo Lah", none, "Forward", 20, false⟩], hasRatings := false }

def c3pd : PlayerData :=
  { name := "Bo Lah", position := "Forward", ratings := [none],
    games := [⟨"NK Celje", "2025-08-01", none⟩],
    averageRating := 0, gamesPlayed := 0, bestRating := 0, worstRating := 0 }

/-- Witness for C3 at a concrete input with a single null rating. -/
theorem claim3_witness :
    (("Bo Lah_Forward", c3pd) ∈ calculatePositionData [c3Game] ∧
      c3pd.ratings.filterMap id = []) ∧
    (c3pd.averageRating = 0 ∧ c3pd.bestRating = 0 ∧ c3pd.worstRating = 0 ∧
      ∀ e ∈ assignedPlayers (calculateBestFormation [c3Game]),
        ¬(e.name = c3pd.name ∧ e.position = c3pd.position)) :=
  ⟨⟨by decide, by decide⟩,
    claim3_zero_ratings_excluded [c3Game] "Bo Lah_Forward" c3pd (by decide) (by decide)⟩

/-! ## Claim C9 -/

/-- C9: no player occupies more than one slot of the best formation; the
assigned players' names are pairwise distinct for every input. -/
theorem claim9_no_player_in_two_slots (games : List GameData) :
    ((assignedPlayers (calculateBestFormation games)).map (fun e => e.name)).Nodup := by
  have hsub : List.Sublist (assignedPlayers (calculateBestFormation games))
      ((sortedPositions games).goalkeepers ++ (sortedPositions games).defenders ++
        (sortedPositions games).midfielders ++ (sortedPositions games).forwards) := by
    rw [assignedPlayers_eq]
    exact ((((List.take_sublist _ _).append (List.take_sublist _ _)).append
      (List.take_sublist _ _)).append (List.take_sublist _ _))
  have hperm : ((sortedPositions games).goalkeepers ++ (sortedPositions games).defenders ++
      (sortedPositions games).midfielders ++ (sortedPositions games).forwards).Perm
      ((playersByPosition games).goalkeepers ++ (playersByPosition games).defenders ++
        (playersByPosition games).midfielders ++ (playersByPosition games).forwards) :=
    (((sortDescBy_perm _ _).append (sortDescBy_perm _ _)).append
      (sortDescBy_perm _ _)).append (sortDescBy_perm _ _)
  have hnodup := buckets_names_nodup games
  have hnodup2 := ((hperm.map (fun e => e.name)).nodup_iff).mpr hnodup
  exact List.Nodup.sublist (List.Sublist.map _ hsub) hnodup2

/-! ## Scraper: string primitives

JavaScript string operations used by the extraction code.  `toLowerCase` is
modelled characterwise (the keywords searched for are ASCII), `includes` as a
substring search, and the anchored regexes as direct character-list parsers. -/

/-- JS `String.prototype.toLowerCase`, characterwise. -/
def lowerStr (s : String) : String := ⟨s.data.map Char.toLower⟩

/-- Split a character list at every occurrence of `sep` (single-character
JS `String.prototype.split`). -/
def splitOnChar (sep : Char) (cs : List Char) : List (List Char) :=
  cs.foldr
    (fun c acc =>
      if c == sep then [] :: acc
      else match acc with
        | w :: rest => (c :: w) :: rest
        | [] => [[c]])
    [[]]

/-- JS `s.split(sep)` for a one-character separator. -/
def strSplitChar (sep : Char) (s : String) : List String :=
  (splitOnChar sep s.data).map (fun w => ⟨w⟩)

/-- Whether the first list starts with the second. -/
def listStartsWith : List Char → List Char → Bool
  | _, [] => true
  | [], _ :: _ => false
  | c :: cs, p :: ps => c == p && listStartsWith cs ps

/-- Whether `pat` occurs as a contiguous sublist. -/
def listIncludes (pat : List Char) : List Char → Bool
  | [] => pat.isEmpty
  | c :: cs => listStartsWith (c :: cs) pat || listIncludes pat cs

/-- JS `String.prototype.includes`. -/
def strIncludes (s pat : String) : Bool := listIncludes pat.toList s.toList

/-- Numeric value of a digit character. -/
def digitVal (c : Char) : ℕ := c.toNat - '0'.toNat

/-- The anchored regex `^(\d\.\d)$` followed by `parseFloat`: exactly one
digit, a dot and one digit. -/
def parseOneDecimal (s : String) : Option ℚ :=
  match s.toList with
  | [a, c, b] =>
      if a.isDigit && c == '.' && b.isDigit then
        some (((10 * digitVal a + digitVal b : ℕ) : ℚ) / 10)
      else none
  | _ => none

/-- The anchored regex `^(\d+)'?$` followed by `parseInt`: digits with an
optional trailing apostrophe. -/
def parseMinutes (s : String) : Option ℕ :=
  let cs := s.toList
  let core := if cs.getLast? = some '\'' then cs.dropLast else cs
  if core.isEmpty then none
  else if core.all (fun c => c.isDigit) then
    some (core.foldl (fun n c => 10 * n + digitVal c) 0)
  else none

/-- The character class `[A-Za-zÀ-žčšđćž\s\-\.\']` of the name regexes (the
named Slovenian letters all lie in the `À`-`ž` range; `\s` is modelled by
`Char.isWhitespace`). -/
def isNameChar (c : Char) : Bool :=
  (('A' ≤ c && c ≤ 'Z') || ('a' ≤ c && c ≤ 'z') ||
    (0xC0 ≤ c.toNat && c.toNat ≤ 0x17E) ||
    c.isWhitespace || c == '-' || c == '.' || c == '\'')

/-! ## Scraper: direct table extraction (scraper.js 520-709, version 1) -/

/-- An image element of a table row: its `src` and `alt` attributes. -/
structure Img where
  src : String
  alt : String
deriving Repr, DecidableEq

/-- A table row as read by the extraction code: the texts of its
`td, div, span` cells, its images, and its full `textContent`. -/
structure Row where
  cells : List String
  images : List Img
  rowText : String
deriving Repr, DecidableEq

/-- The header/empty-row skip (scraper.js 534-539). -/
def skipRow (rowText : String) : Bool :=
  rowText.length < 20 || strIncludes (lowerStr rowText) "player" ||
    strIncludes (lowerStr rowText) "rating" || strIncludes (lowerStr rowText) "ocena"

/-- The per-cell candidate-name test (scraper.js 546-556). -/
def isCandidateName (t : String) : Bool :=
  decide (t.length > 2) && decide (t.length < 50) &&
    !t.toList.isEmpty && t.toList.all isNameChar &&
    !(match t.toList with | c :: _ => c.isDigit | [] => false) &&
    !strIncludes t "%" && !strIncludes t "(" && !strIncludes t "/" &&
    !strIncludes t "Maribor" && !strIncludes t "Celje" && !strIncludes t "Rating" &&
    decide ((strSplitChar ' ' t).length ≤ 4)

/-- The name scan (scraper.js 543-567): first cell passing the candidate test
whose words of length above one number between one and three. -/
def findPlayerName (cells : List String) : Option String :=
  cells.findSome? (fun t =>
    if isCandidateName t then
      let words := (strSplitChar ' ' t).filter (fun w => decide (w.length > 1))
      if decide (1 ≤ words.length) && decide (words.length ≤ 3) then some t else none
    else none)

/-- The rating scan (scraper.js 571-587): the last three cells, scanned from
the right, first `X.X` value within `[5.0, 10.0]`. -/
def findRating (cells : List String) : Option ℚ :=
  ((cells.drop (cells.length - 3)).reverse).findSome? (fun t =>
    match parseOneDecimal t with
    | some r => if (5 : ℚ) ≤ r ∧ r ≤ 10 then some r else none
    | none => none)

/-- The minutes scan (scraper.js 591-604): first cell matching `^(\d+)'?$`
sets the minutes and the starting-eleven flag. -/
def findMinutes (cells : List String) : ℕ × Bool :=
  match cells.findSome? parseMinutes with
  | some m => (m, decide (m ≥ 45))
  | none => (0, false)

/-- The position-code map restricted to the letters of the regex `^[NFSMOV]$`
(scraper.js 607-625; the map's `D` and `G` entries are unreachable because
the regex does not match them, and every matched letter is in the map, so the
`|| text` fallback is dead). -/
def positionCodeV1 (t : String) : Option String :=
  if t = "N" ∨ t = "F" then some "Forward"
  else if t = "S" ∨ t = "M" then some "Midfielder"
  else if t = "O" then some "Defender"
  else if t = "V" then some "Goalkeeper"
  else none

/-- The position scan of version 1: first matching cell, else `Unknown`. -/
def findPositionV1 (cells : List String) : String :=
  (cells.findSome? positionCodeV1).getD "Unknown"

/-- The Maribor-logo indicators (scraper.js 634-641). -/
def mariborLogoIndicator (rowText : String) (img : Img) : Bool :=
  let src := lowerStr img.src
  let alt := lowerStr img.alt
  strIncludes src "maribor" || strIncludes alt "maribor" || strIncludes src "2420" ||
    (strIncludes src "team" && strIncludes src "logo" &&
      (strIncludes (lowerStr rowText) "maribor" || strIncludes src "purple" ||
        strIncludes src "violet"))

/-- The opponent-logo indicators (scraper.js 649-655). -/
def opponentLogoIndicator (img : Img) : Bool :=
  let src := lowerStr img.src
  let alt := lowerStr img.alt
  strIncludes src "celje" || strIncludes alt "celje" ||
    strIncludes src "domzale" || strIncludes alt "domzale" ||
    strIncludes src "koper" || strIncludes alt "koper" ||
    strIncludes src "paks" || strIncludes alt "paks" ||
    strIncludes src "primorje" || strIncludes alt "primorje"

/-- The image loop (scraper.js 628-658): a Maribor indicator accepts, an
opponent indicator stops the scan rejecting, otherwise continue. -/
def logoScan (rowText : String) : List Img → Bool
  | [] => false
  | img :: rest =>
      if mariborLogoIndicator rowText img then true
      else if opponentLogoIndicator img then false
      else logoScan rowText rest

/-- The hard-coded fallback roster (scraper.js 662-668). -/
def knownMariborPlayers : List String :=
  ["jug", "širvys", "sirvys", "reghba", "lorber", "soudani", "matondo",
   "repas", "tetteh", "vučkić", "vuckic", "milić", "milic", "kovačević", "kovacevic",
   "sikošek", "sikosek", "nieto", "orphe", "mbina", "sturm", "zabukovnik",
   "taylor", "tshimbamba", "rekik", "tutyškinas", "tutyskinas", "avdyli",
   "iličić", "ilicic", "jurić", "juric", "ojo", "bamba", "komáromi", "komaromi"]

/-- The fallback identification (scraper.js 670-676). -/
def knownMariborFallback (playerName : String) : Bool :=
  let playerNameLower := lowerStr playerName
  let firstWord := lowerStr ((strSplitChar ' ' playerNameLower).headD "")
  knownMariborPlayers.any (fun known =>
    strIncludes playerNameLower known || strIncludes known firstWord)

/-- The excluded opponent names (scraper.js 684-688). -/
def knownOpponents : List String := ["iosifov", "kvesić", "kvesic"]

/-- Whether the name matches a known opponent player. -/
def isKnownOpponent (playerName : String) : Bool :=
  knownOpponents.any (fun known => strIncludes (lowerStr playerName) known)

/-- The team-identity decision for a row (scraper.js 628-688): the logo scan,
then the known-player fallback when it rejected, then the known-opponent
override. -/
def mariborDecision (rowText : String) (images : List Img) (playerName : String) : Bool :=
  let logoResult := logoScan rowText images
  let withFallback := if logoResult then true else knownMariborFallback playerName
  if isKnownOpponent playerName then false else withFallback

/-- One row of the direct table extraction (scraper.js 531-697). -/
def extractRowV1 (row : Row) : Option Player :=
  if skipRow row.rowText then none
  else
    match findPlayerName row.cells with
    | none => none
    | some playerName =>
      match findRating row.cells with
      | none => none
      | some playerRating =>
        if mariborDecision row.rowText row.images playerName then
          some { name := playerName, rating := some playerRating,
                 position := findPositionV1 row.cells,
                 minutesPlayed := (findMinutes row.cells).1,
                 isStartingXI := (findMinutes row.cells).2 }
        else none

/-- The direct table extraction (scraper.js 522-709): all accepted rows,
sorted by descending rating.  Every accepted rating is non-null, so the JS
comparator `b.rating - a.rating` is the descending sort on the rating. -/
def extractPlayersV1 (rows : List Row) : List Player :=
  sortDescBy (fun p => p.rating.getD 0) (rows.filterMap extractRowV1)

/-! ## Scraper: page-level control flow of `scrapeGameDirectly` (version 1) -/

/-- The basic game info extracted from the page title and score scan
(scraper.js 271-296); the DOM scan itself is opaque input. -/
structure BasicInfo where
  homeTeam : String
  awayTeam : String
  score : String
deriving Repr, DecidableEq

/-- The page-scan summary feeding the enhanced rating detection
(scraper.js 403-489): the Player-of-the-Match text search, the
context-validated `X.X` ratings found, and the statistics-table search. -/
structure RatingScan where
  hasPlayerOfMatch : Bool
  validRatings : List ℚ
  hasStatsTable : Bool
deriving Repr, DecidableEq

/-- Strategy 3 (scraper.js 457-460): at least six ratings, some at or above
7.5 and some at or below 7.0. -/
def goodRatingDistribution (s : RatingScan) : Bool :=
  decide (s.validRatings.length ≥ 6) &&
    s.validRatings.any (fun r => decide ((7.5 : ℚ) ≤ r)) &&
    s.validRatings.any (fun r => decide (r ≤ (7.0 : ℚ)))

/-- The final detection decision (scraper.js 481-484). -/
def ratingDetectionDecision (s : RatingScan) : Bool :=
  (s.hasPlayerOfMatch && decide (s.validRatings.length ≥ 4)) ||
    (goodRatingDistribution s && s.hasStatsTable) ||
    (decide (s.validRatings.length ≥ 10) && s.hasStatsTable)

/-- The link data of one match from the schedule scan. -/
structure GameInfo where
  url : String
  dateString : String
deriving Repr, DecidableEq

/-- Wall-clock environment: `Date.now().toString()`, used only as the game-id
fallback for URLs ending in a slash. -/
structure ScrapeEnv where
  now : String
deriving Repr, DecidableEq

/-- `generateGameId` (scraper.js 776-779): last URL segment, or the current
timestamp when that segment is empty. -/
def generateGameId (env : ScrapeEnv) (url : String) : String :=
  let last := (strSplitChar '/' url).getLastD ""
  if last = "" then env.now else last

/-- The state of the match page as read by `scrapeGameDirectly`: whether each
navigation target can be found and clicked, the rating-detection scan, and
the statistics-table rows. -/
structure PageV1 where
  basic : BasicInfo
  postavaClickable : Bool
  statistikaClickable : Bool
  splosnoClickable : Bool
  scan : RatingScan
  rows : List Row
deriving Repr, DecidableEq

/-- The empty-player record returned on every detection failure
(scraper.js 326-337, 361-372, 498-509). -/
def emptyGameRecord (env : ScrapeEnv) (info : GameInfo) (basic : BasicInfo) : GameData :=
  { id := generateGameId env info.url, url := info.url, date := info.dateString,
    homeTeam := basic.homeTeam, awayTeam := basic.awayTeam, score := basic.score,
    players := [], hasRatings := false }

/-- `scrapeGameDirectly` (scraper.js 260-727): failing to find the Postava
tab, the Statistika igralca tab or reliable ratings each returns the record
with an empty player list; otherwise the players are extracted from the
table.  The optional Splošno click has no effect on the returned data. -/
def scrapeGameDirectly (env : ScrapeEnv) (info : GameInfo) (page : PageV1) : GameData :=
  if !page.postavaClickable then emptyGameRecord env info page.basic
  else if !page.statistikaClickable then emptyGameRecord env info page.basic
  else if !ratingDetectionDecision page.scan then emptyGameRecord env info page.basic
  else
    let players := extractPlayersV1 page.rows
    { id := generateGameId env info.url, url := info.url, date := info.dateString,
      homeTeam := page.basic.homeTeam, awayTeam := page.basic.awayTeam,
      score := page.basic.score, players := players,
      hasRatings := decide (players.length > 0) }

/-! ## Scraper: retries and the scrape loop (scraper.js 190-258) -/

/-- `this.maxRetries` (scraper.js 14). -/
def maxRetries : ℕ := 3

/-- The outcome of one attempt of the per-match scrape: a returned record, a
falsy return, or a thrown error. -/
inductive AttemptResult where
  | success (g : GameData)
  | failed
  | errored
deriving Repr, DecidableEq

/-- The body of the retry loop of `scrapeGameWithRetries` (scraper.js
230-258), unrolled on the remaining iteration count: a successful attempt
returns its record; a falsy result goes straight to the next attempt; an
error before the last attempt sleeps `3000 * attempt` milliseconds and
retries, and on the last attempt returns `null`.  The returned list records
the delays actually slept. -/
def retryLoop (outcomes : ℕ → AttemptResult) : ℕ → ℕ → Option GameData × List ℕ
  | _, 0 => (none, [])
  | attempt, rem + 1 =>
      match outcomes attempt with
      | .success g => (some g, [])
      | .failed => retryLoop outcomes (attempt + 1) rem
      | .errored =>
          if attempt < maxRetries then
            let r := retryLoop outcomes (attempt + 1) rem
            (r.1, 3000 * attempt :: r.2)
          else (none, [])

/-- `scrapeGameWithRetries` (scraper.js 230-258): attempts 1 to
`maxRetries`. -/
def scrapeGameWithRetries (outcomes : ℕ → AttemptResult) : Option GameData × List ℕ :=
  retryLoop outcomes 1 maxRetries

/-- The collection loop of `scrapeGames` (scraper.js 190-211): push every
non-null per-match result, in order; null results are skipped and the loop
continues. -/
def scrapeGames (results : List (Option GameData)) : List GameData :=
  results.foldl
    (fun acc r => match r with | some g => acc ++ [g] | none => acc) []

/-! ## Scraper: `scrapeGameWithCorrectNavigation` (scraper.js 1043-1215,
version 2)

The quick ratings check collects context-validated `X.X` values in
`[5.0, 10.0]` and requires at least five of them (scraper.js 1084-1146).
When it fails the match is returned with an empty player list; when it
succeeds, a failure to click the Postava tab or the Statistika igralca tab
throws (scraper.js 1188-1190, 1212-1214).  The extraction performed after a
fully successful navigation is abstracted as the page's `navigatedResult`
field; the claims under verification concern only the failure paths. -/

structure PageV2 where
  basic : BasicInfo
  foundRatings : List ℚ
  postavaClickable : Bool
  statistikaClickable : Bool
  navigatedResult : GameData
deriving Repr, DecidableEq

/-- `scrapeGameWithCorrectNavigation`; `Except.error ()` models a thrown
`Error`, caught by the retry loop of its caller. -/
def scrapeGameWithCorrectNavigation (env : ScrapeEnv) (info : GameInfo)
    (p : PageV2) : Except Unit GameData :=
  if !(decide (5 ≤ p.foundRatings.length)) then
    .ok (emptyGameRecord env info p.basic)
  else if !p.postavaClickable then .error ()
  else if !p.statistikaClickable then .error ()
  else .ok p.navigatedResult

/-! ## Scraper: `extractMariborPlayers` (scraper.js 2643-2742, version 4) -/

/-- The candidate-name test of version 4 (scraper.js 2677-2684): length
bounds 2 and 40, name characters only, not starting with a digit. -/
def isCandidateNameV4 (t : String) : Bool :=
  decide (t.length > 2) && decide (t.length < 40) &&
    !t.toList.isEmpty && t.toList.all isNameChar &&
    !(match t.toList with | c :: _ => c.isDigit | [] => false)

/-- The name scan of version 4: first of the first three cells passing the
test. -/
def findPlayerNameV4 (cells : List String) : Option String :=
  (cells.take 3).findSome? (fun t => if isCandidateNameV4 t then some t else none)

/-- The rating scan of version 4 (scraper.js 2690-2701): first cell holding
an `X.X` value within `[5.0, 10.0]`. -/
def findRatingV4 (cells : List String) : Option ℚ :=
  cells.findSome? (fun t =>
    match parseOneDecimal t with
    | some r => if (5 : ℚ) ≤ r ∧ r ≤ 10 then some r else none
    | none => none)

/-- The minutes scan of version 4 (scraper.js 2705-2712): the last cell
matching `^(\d+)'?$` with a value between 1 and 120 wins (no break). -/
def minutesV4 (cells : List String) : ℕ :=
  cells.foldl
    (fun m t =>
      match parseMinutes t with
      | some v => if 1 ≤ v ∧ v ≤ 120 then v else m
      | none => m) 0

/-- The position-code map of version 4 (scraper.js 2714-2723), for the full
regex `^[NFSMOVDG]$`; every matched letter is in the map, so the `|| text`
fallback is dead. -/
def positionCodeV4 (t : String) : Option String :=
  if t = "N" ∨ t = "F" then some "Forward"
  else if t = "S" ∨ t = "M" then some "Midfielder"
  else if t = "O" ∨ t = "D" then some "Defender"
  else if t = "V" ∨ t = "G" then some "Goalkeeper"
  else none

/-- The position scan of version 4: the last matching cell wins. -/
def positionV4 (cells : List String) : String :=
  cells.foldl
    (fun pos t => match positionCodeV4 t with | some p => p | none => pos) "Unknown"

/-- The Maribor-logo check of version 4 (scraper.js 2663-2671): `maribor` or
the team id `2420` in `src` or `alt`; no fallback. -/
def mariborLogoV4 : List Img → Bool
  | [] => false
  | img :: rest =>
      let src := lowerStr img.src
      let alt := lowerStr img.alt
      if strIncludes src "maribor" || strIncludes alt "maribor" ||
          strIncludes src "2420" then true
      else mariborLogoV4 rest

/-- The unanchored regex `/\d\.\d/`: some digit-dot-digit substring. -/
def hasDigitDotDigit : List Char → Bool
  | a :: b :: c :: rest =>
      (a.isDigit && b == '.' && c.isDigit) || hasDigitDotDigit (b :: c :: rest)
  | _ => false

/-- One row of `extractMariborPlayers` (scraper.js 2648-2739). -/
def extractRowV4 (row : Row) : Option Player :=
  if decide (row.rowText.length < 20) || !hasDigitDotDigit row.rowText.toList then none
  else if !mariborLogoV4 row.images then none
  else
    match findPlayerNameV4 row.cells with
    | none => none
    | some playerName =>
      match findRatingV4 row.cells with
      | none => none
      | some rating =>
        some { name := playerName, rating := some rating,
               position := positionV4 row.cells,
               minutesPlayed := minutesV4 row.cells,
               isStartingXI := decide (minutesV4 row.cells ≥ 45) }

/-- `extractMariborPlayers` (scraper.js 2643-2742): accepted rows sorted by
descending rating. -/
def extractMariborPlayers (rows : List Row) : List Player :=
  sortDescBy (fun p => p.rating.getD 0) (rows.filterMap extractRowV4)

/-! ## Helpers.validateRating (src/utils/helpers.js 38-44) -/

/-- `Helpers.validateRating`: the input is the result of `parseFloat`
(`none` models `NaN`); values outside `[0, 10]` are rejected, accepted
values are rounded to one decimal. -/
def validateRating (parsed : Option ℚ) : Option ℚ :=
  match parsed with
  | none => none
  | some p => if p < 0 ∨ p > 10 then none else some (round1 p)

/-! ## Rounding and parsing facts -/

theorem round1_isOneDecimal (q : ℚ) : isOneDecimal (round1 q) := by
  unfold isOneDecimal round1
  have h : ((jsRound (q * 10) : ℚ) / 10) * 10 = (jsRound (q * 10) : ℚ) :=
    div_mul_cancel₀ _ (by norm_num)
  rw [h]
  exact Rat.den_intCast _

theorem round1_bounds {p : ℚ} (h0 : 0 ≤ p) (h10 : p ≤ 10) :
    0 ≤ round1 p ∧ round1 p ≤ 10 := by
  unfold round1 jsRound
  have hl : (0 : ℤ) ≤ ⌊p * 10 + 1/2⌋ := by
    rw [Int.le_floor]
    push_cast
    linarith
  have hu : ⌊p * 10 + 1/2⌋ < 101 := by
    rw [Int.floor_lt]
    push_cast
    linarith
  constructor
  · apply div_nonneg _ (by norm_num)
    exact_mod_cast hl
  · have h100 : ((⌊p * 10 + 1/2⌋ : ℤ) : ℚ) ≤ 100 := by
      exact_mod_cast Int.lt_add_one_iff.mp hu
    linarith

theorem parseOneDecimal_isOneDecimal (t : String) (r : ℚ)
    (h : parseOneDecimal t = some r) : isOneDecimal r := by
  unfold parseOneDecimal at h
  split at h
  · split at h
    · injection h with h2
      subst h2
      unfold isOneDecimal
      rw [div_mul_cancel₀ _ (by norm_num)]
      exact Rat.den_natCast _
    · exact absurd h (by simp)
  · exact absurd h (by simp)

theorem findRating_spec (cells : List String) (r : ℚ)
    (h : findRating cells = some r) : 5 ≤ r ∧ r ≤ 10 ∧ isOneDecimal r := by
  unfold findRating at h
  obtain ⟨t, ht, hf⟩ := List.exists_of_findSome?_eq_some h
  cases hp : parseOneDecimal t with
  | none =>
    simp only [hp] at hf
    exact absurd hf (by simp)
  | some r0 =>
    simp only [hp] at hf
    split at hf
    · rename_i hcond
      injection hf with hf2
      subst hf2
      exact ⟨hcond.1, hcond.2, parseOneDecimal_isOneDecimal t r0 hp⟩
    · exact absurd hf (by simp)

theorem findRatingV4_spec (cells : List String) (r : ℚ)
    (h : findRatingV4 cells = some r) : 5 ≤ r ∧ r ≤ 10 ∧ isOneDecimal r := by
  unfold findRatingV4 at h
  obtain ⟨t, ht, hf⟩ := List.exists_of_findSome?_eq_some h
  cases hp : parseOneDecimal t with
  | none =>
    simp only [hp] at hf
    exact absurd hf (by simp)
  | some r0 =>
    simp only [hp] at hf
    split at hf
    · rename_i hcond
      injection hf with hf2
      subst hf2
      exact ⟨hcond.1, hcond.2, parseOneDecimal_isOneDecimal t r0 hp⟩
    · exact absurd hf (by simp)

theorem validateRating_spec (parsed : Option ℚ) (r : ℚ)
    (h : validateRating parsed = some r) : 0 ≤ r ∧ r ≤ 10 ∧ isOneDecimal r := by
  cases parsed with
  | none => exact absurd h (by simp [validateRating])
  | some p =>
    rw [show validateRating (some p) =
        if p < 0 ∨ p > 10 then none else some (round1 p) from rfl] at h
    by_cases hc : p < 0 ∨ p > 10
    · rw [if_pos hc] at h
      exact absurd h (by simp)
    · rw [if_neg hc] at h
      push_neg at hc
      injection h with h2
      subst h2
      obtain ⟨hb1, hb2⟩ := round1_bounds hc.1 hc.2
      exact ⟨hb1, hb2, round1_isOneDecimal p⟩

/-! ## Extraction inversion lemmas -/

theorem findMinutes_spec (cells : List String) :
    (findMinutes cells).2 = decide (45 ≤ (findMinutes cells).1) := by
  unfold findMinutes
  cases h : cells.findSome? parseMinutes <;> simp [ge_iff_le]

theorem extractRowV1_inv (row : Row) (p : Player) (h : extractRowV1 row = some p) :
    p.isStartingXI = decide (45 ≤ p.minutesPlayed) ∧
      ∃ r, p.rating = some r ∧ findRating row.cells = some r := by
  unfold extractRowV1 at h
  split at h
  · exact absurd h (by simp)
  split at h
  · exact absurd h (by simp)
  rename_i playerName hname
  split at h
  · exact absurd h (by simp)
  rename_i r hrat
  split at h
  · injection h with hrec
    subst hrec
    exact ⟨findMinutes_spec row.cells, r, rfl, hrat⟩
  · exact absurd h (by simp)

theorem extractRowV4_inv (row : Row) (p : Player) (h : extractRowV4 row = some p) :
    p.isStartingXI = decide (45 ≤ p.minutesPlayed) ∧
      ∃ r, p.rating = some r ∧ findRatingV4 row.cells = some r := by
  unfold extractRowV4 at h
  split at h
  · exact absurd h (by simp)
  split at h
  · exact absurd h (by simp)
  split at h
  · exact absurd h (by simp)
  rename_i playerName hname
  split at h
  · exact absurd h (by simp)
  rename_i r hrat
  injection h with hrec
  subst hrec
  exact ⟨by simp [ge_iff_le], r, rfl, hrat⟩

theorem mem_extractPlayersV1 (rows : List Row) (p : Player)
    (h : p ∈ extractPlayersV1 rows) :
    ∃ row, row ∈ rows ∧ extractRowV1 row = some p := by
  have h2 : p ∈ rows.filterMap extractRowV1 := (sortDescBy_perm _ _).mem_iff.mp h
  simpa using List.mem_filterMap.mp h2

theorem mem_extractMariborPlayers (rows : List Row) (p : Player)
    (h : p ∈ extractMariborPlayers rows) :
    ∃ row, row ∈ rows ∧ extractRowV4 row = some p := by
  have h2 : p ∈ rows.filterMap extractRowV4 := (sortDescBy_perm _ _).mem_iff.mp h
  simpa using List.mem_filterMap.mp h2

/-! ## The scrape collection loop -/

theorem scrapeGames_eq (results : List (Option GameData)) :
    scrapeGames results = results.filterMap id := by
  have aux : ∀ (rs : List (Option GameData)) (acc : List GameData),
      rs.foldl (fun acc r => match r with | some g => acc ++ [g] | none => acc) acc =
        acc ++ rs.filterMap id := by
    intro rs
    induction rs with
    | nil => intro acc; simp
    | cons r rs ih =>
      intro acc
      cases r <;> simp [ih]
  simpa using aux results []

/-! ## Claim C5 -/

/-- C5: each match scrape is attempted at most `maxRetries = 3` times (the
result depends only on the first three attempt outcomes); the delays actually
slept form a sublist of the linear schedule `[3000, 6000]` (3000·attempt
milliseconds after attempt 1 and 2); when no attempt succeeds the wrapper
returns `null`; and the scrape loop simply omits `null` results, keeping all
the others in order. -/
theorem claim5_retry_policy :
    maxRetries = 3 ∧
    (∀ o o' : ℕ → AttemptResult,
      o 1 = o' 1 → o 2 = o' 2 → o 3 = o' 3 →
      scrapeGameWithRetries o = scrapeGameWithRetries o') ∧
    (∀ o : ℕ → AttemptResult, List.Sublist (scrapeGameWithRetries o).2 [3000, 6000]) ∧
    (∀ o : ℕ → AttemptResult,
      (∀ g, o 1 ≠ .success g) → (∀ g, o 2 ≠ .success g) → (∀ g, o 3 ≠ .success g) →
      (scrapeGameWithRetries o).1 = none) ∧
    (∀ results : List (Option GameData), scrapeGames results = results.filterMap id) := by
  refine ⟨rfl, ?_, ?_, ?_, scrapeGames_eq⟩
  · intro o o' h1 h2 h3
    show retryLoop o 1 3 = retryLoop o' 1 3
    simp only [retryLoop, maxRetries, h1, h2, h3]
  · intro o
    show List.Sublist (retryLoop o 1 3).2 [3000, 6000]
    rcases h1 : o 1 with g1 | - | - <;> rcases h2 : o 2 with g2 | - | - <;>
      rcases h3 : o 3 with g3 | - | - <;>
      simp only [retryLoop, maxRetries, h1, h2, h3] <;> norm_num
  · intro o n1 n2 n3
    show (retryLoop o 1 3).1 = none
    rcases h1 : o 1 with g1 | - | - <;> rcases h2 : o 2 with g2 | - | - <;>
      rcases h3 : o 3 with g3 | - | -
    all_goals first
      | exact absurd h1 (n1 _)
      | exact absurd h2 (n2 _)
      | exact absurd h3 (n3 _)
      | (simp only [retryLoop, maxRetries, h1, h2, h3] <;> try norm_num)

/-- Witness for C5: with every attempt erroring, the wrapper returns `null`
after sleeping 3000 then 6000 milliseconds, and two pointwise-equal outcome
functions give the same run. -/
theorem claim5_witness :
    ((scrapeGameWithRetries (fun _ => AttemptResult.errored)).1 = none ∧
      scrapeGameWithRetries (fun _ => AttemptResult.errored) = (none, [3000, 6000])) ∧
    scrapeGameWithRetries (fun _ => AttemptResult.errored) =
      scrapeGameWithRetries (fun n => if n = 0 then AttemptResult.failed
        else AttemptResult.errored) :=
  ⟨⟨claim5_retry_policy.2.2.2.1 (fun _ => AttemptResult.errored)
      (fun _ h => AttemptResult.noConfusion h)
      (fun _ h => AttemptResult.noConfusion h)
      (fun _ h => AttemptResult.noConfusion h), rfl⟩,
    claim5_retry_policy.2.1 _ _ rfl rfl rfl⟩

/-! ## Claim C7 -/

/-- C7: every non-null per-match record is pushed by the scrape loop
regardless of its player list; in particular a record with an empty player
list is still included in the returned collection. -/
theorem claim7_empty_player_record_kept (results : List (Option GameData))
    (g : GameData) (hmem : some g ∈ results) (_hempty : g.players = []) :
    g ∈ scrapeGames results := by
  rw [scrapeGames_eq]
  exact List.mem_filterMap.mpr ⟨some g, hmem, rfl⟩

def c7Game : GameData :=
  { id := "e1", url := "u", date := "2025-08-01", homeTeam := "NK Maribor",
    awayTeam := "NK Celje", score := "0-0", players := [], hasRatings := false }

/-- Witness for C7: a record with no players survives the collection loop. -/
theorem claim7_witness :
    (some c7Game ∈ [some c7Game] ∧ c7Game.players = []) ∧
      c7Game ∈ scrapeGames [some c7Game] :=
  ⟨⟨by simp, rfl⟩,
    claim7_empty_player_record_kept [some c7Game] c7Game (by simp) rfl⟩

/-! ## Claim C4 (corrected) -/

/-- C4 (amended): in `scrapeGameDirectly` every section-detection or
rating-detection failure returns the match record with an empty player list
and `hasRatings` false; in `scrapeGameWithCorrectNavigation` only a failed
ratings detection does so, while a failure to click the Lineups or Player
statistics tab throws instead, so that after the retries the match is
omitted. -/
theorem claim4_section_failures (env : ScrapeEnv) (info : GameInfo) :
    (∀ page : PageV1,
      (page.postavaClickable = false ∨ page.statistikaClickable = false ∨
        ratingDetectionDecision page.scan = false) →
      scrapeGameDirectly env info page = emptyGameRecord env info page.basic ∧
        (scrapeGameDirectly env info page).players = [] ∧
        (scrapeGameDirectly env info page).hasRatings = false) ∧
    (∀ p : PageV2, p.foundRatings.length < 5 →
      scrapeGameWithCorrectNavigation env info p =
        Except.ok (emptyGameRecord env info p.basic)) ∧
    (∀ p : PageV2, 5 ≤ p.foundRatings.length → p.postavaClickable = false →
      scrapeGameWithCorrectNavigation env info p = Except.error ()) ∧
    (∀ p : PageV2, 5 ≤ p.foundRatings.length → p.postavaClickable = true →
      p.statistikaClickable = false →
      scrapeGameWithCorrectNavigation env info p = Except.error ()) := by
  refine ⟨?_, ?_, ?_, ?_⟩
  · intro page hfail
    have hrec : scrapeGameDirectly env info page = emptyGameRecord env info page.basic := by
      unfold scrapeGameDirectly
      rcases hfail with hh | hh | hh
      · simp [hh]
      · by_cases h1 : page.postavaClickable <;> simp [h1, hh]
      · by_cases h1 : page.postavaClickable <;> by_cases h2 : page.statistikaClickable <;>
          simp [h1, h2, hh]
    exact ⟨hrec, by rw [hrec]; rfl, by rw [hrec]; rfl⟩
  · intro p hlen
    unfold scrapeGameWithCorrectNavigation
    have hn : ¬(5 ≤ p.foundRatings.length) := by omega
    simp [hn]
  · intro p hlen hpost
    unfold scrapeGameWithCorrectNavigation
    simp [hlen, hpost]
  · intro p hlen hpost hstat
    unfold scrapeGameWithCorrectNavigation
    simp [hlen, hpost, hstat]

def c4env : ScrapeEnv := ⟨"1700000000000"⟩

def c4info : GameInfo := ⟨"https://www.sofascore.com/event/abc123", "2025-08-01"⟩

def c4basic : BasicInfo := ⟨"NK Maribor", "NK Celje", "1-0"⟩

def c4page : PageV2 :=
  { basic := c4basic, foundRatings := [7, 7, 7, 7, 7], postavaClickable := false,
    statistikaClickable := true,
    navigatedResult := emptyGameRecord c4env c4info c4basic }

/-- Counterexample to C4 as stated: on a page where ratings are detected but
the Lineups section cannot be found, `scrapeGameWithCorrectNavigation` throws
instead of recording the match with an empty player list, and after all
retries error out the match yields `null`, i.e. it is dropped from the result
set. -/
theorem claim4_counterexample :
    scrapeGameWithCorrectNavigation c4env c4info c4page = Except.error () ∧
      (scrapeGameWithRetries (fun _ => AttemptResult.errored)).1 = none :=
  ⟨rfl, rfl⟩

def c4pageA : PageV1 :=
  { basic := c4basic, postavaClickable := false, statistikaClickable := true,
    splosnoClickable := true, scan := ⟨false, [], false⟩, rows := [] }

def c4pageB : PageV2 :=
  { basic := c4basic, foundRatings := [], postavaClickable := true,
    statistikaClickable := true,
    navigatedResult := emptyGameRecord c4env c4info c4basic }

/-- Witness for the amended C4 at concrete pages. -/
theorem claim4_witness :
    (scrapeGameDirectly c4env c4info c4pageA = emptyGameRecord c4env c4info c4pageA.basic ∧
      (scrapeGameDirectly c4env c4info c4pageA).players = [] ∧
      (scrapeGameDirectly c4env c4info c4pageA).hasRatings = false) ∧
    scrapeGameWithCorrectNavigation c4env c4info c4pageB =
      Except.ok (emptyGameRecord c4env c4info c4pageB.basic) :=
  ⟨(claim4_section_failures c4env c4info).1 c4pageA (Or.inl rfl),
    (claim4_section_failures c4env c4info).2.1 c4pageB (by decide)⟩

/-! ## Claim C6 (corrected) -/

/-- C6 (amended): `validateRating` returns `null` or a one-decimal value in
`[0, 10]` (not `[5, 10]`: its guard is `parsed < 0 || parsed > 10`), while
every rating accepted during table extraction, and hence every rating on an
extracted player, is a one-decimal value in `[5.0, 10.0]`. -/
theorem claim6_rating_ranges (parsed : Option ℚ) (r : ℚ) (cells : List String)
    (rows : List Row) (p : Player) :
    (validateRating parsed = some r → 0 ≤ r ∧ r ≤ 10 ∧ isOneDecimal r) ∧
    (findRating cells = some r → 5 ≤ r ∧ r ≤ 10 ∧ isOneDecimal r) ∧
    (p ∈ extractPlayersV1 rows →
      ∃ q, p.rating = some q ∧ 5 ≤ q ∧ q ≤ 10 ∧ isOneDecimal q) := by
  refine ⟨validateRating_spec parsed r, findRating_spec cells r, ?_⟩
  intro h
  obtain ⟨row, -, hrow⟩ := mem_extractPlayersV1 rows p h
  obtain ⟨-, q, hq, hfind⟩ := extractRowV1_inv row p hrow
  obtain ⟨h5, h10, hod⟩ := findRating_spec row.cells q hfind
  exact ⟨q, hq, h5, h10, hod⟩

unseal Rat.add Rat.mul Rat.inv in
/-- Counterexample to C6 as stated: `validateRating` accepts the rating 3,
which is below the claimed lower bound 5.0. -/
theorem claim6_counterexample :
    validateRating (some 3) = some 3 ∧ ¬((5 : ℚ) ≤ 3) := by
  constructor <;> decide

def c10Row : Row :=
  { cells := ["Jan Repas", "M", "90", "7.5"],
    images := [⟨"https://img.sofascore.com/maribor.png", "NK Maribor"⟩],
    rowText := "Jan Repas M 90 7.5 aaaa" }

def c10Player : Player :=
  ⟨"Jan Repas", some (15/2), "Midfielder", 90, true⟩

unseal Rat.add Rat.mul Rat.inv in
/-- Witness for the amended C6 at concrete inputs. -/
theorem claim6_witness :
    (validateRating (some (29/4)) = some (73/10) ∧
      0 ≤ (73/10 : ℚ) ∧ (73/10 : ℚ) ≤ 10 ∧ isOneDecimal (73/10)) ∧
    (findRating ["7.3"] = some (73/10) ∧
      (5 : ℚ) ≤ 73/10 ∧ (73/10 : ℚ) ≤ 10 ∧ isOneDecimal (73/10)) ∧
    (c10Player ∈ extractPlayersV1 [c10Row] ∧
      ∃ q, c10Player.rating = some q ∧ 5 ≤ q ∧ q ≤ 10 ∧ isOneDecimal q) :=
  ⟨⟨by decide,
      (claim6_rating_ranges (some (29/4)) (73/10) ["7.3"] [c10Row] c10Player).1 (by decide)⟩,
    ⟨by decide,
      (claim6_rating_ranges (some (29/4)) (73/10) ["7.3"] [c10Row] c10Player).2.1 (by decide)⟩,
    ⟨by decide,
      (claim6_rating_ranges (some (29/4)) (73/10) ["7.3"] [c10Row] c10Player).2.2 (by decide)⟩⟩

/-! ## Claim C10 -/

/-- C10: every player object produced by the table extraction (both the
direct extraction and `extractMariborPlayers`) has its starting-eleven flag
true exactly when the extracted minutes played are at least 45. -/
theorem claim10_startingXI_iff_minutes (rows : List Row) (p : Player) :
    (p ∈ extractPlayersV1 rows → (p.isStartingXI = true ↔ 45 ≤ p.minutesPlayed)) ∧
    (p ∈ extractMariborPlayers rows → (p.isStartingXI = true ↔ 45 ≤ p.minutesPlayed)) := by
  constructor
  · intro h
    obtain ⟨row, -, hrow⟩ := mem_extractPlayersV1 rows p h
    rw [(extractRowV1_inv row p hrow).1]
    simp
  · intro h
    obtain ⟨row, -, hrow⟩ := mem_extractMariborPlayers rows p h
    rw [(extractRowV4_inv row p hrow).1]
    simp

unseal Rat.add Rat.mul Rat.inv in
/-- Witness for C10: a concrete row run through both extraction pipelines. -/
theorem claim10_witness :
    (c10Player ∈ extractPlayersV1 [c10Row] ∧
      (c10Player.isStartingXI = true ↔ 45 ≤ c10Player.minutesPlayed)) ∧
    (c10Player ∈ extractMariborPlayers [c10Row] ∧
      (c10Player.isStartingXI = true ↔ 45 ≤ c10Player.minutesPlayed)) :=
  ⟨⟨by decide, (claim10_startingXI_iff_minutes [c10Row] c10Player).1 (by decide)⟩,
    ⟨by decide, (claim10_startingXI_iff_minutes [c10Row] c10Player).2 (by decide)⟩⟩

end Maribor
